import Mathlib

/-!
Shallow embedding of the reward-accounting code in
`beacon_node/http_api/src/attestation_rewards.rs` and
`beacon_node/http_api/src/sync_committee_rewards.rs`.

Modelling conventions:
* Rust `u64` values are `Nat` with explicit `< 2 ^ 64` checks where the code
  uses `safe_arith` checked operations; `i64`/`i128` values are `Int` with the
  wrapping casts written out explicitly.
* Fallible steps (`?`, `.unwrap()` on external results) are `Option`: a `none`
  result means the call does not return a normal value.
* External collaborators (the beacon state, the participation cache, the spec
  constants fetched from them) are packaged into an `Inputs` record holding
  exactly the values the function reads from them.
* The two `HashMap`s have unique keys; `ideal_rewards_hashmap` is represented
  by per-flag cell lists (the key space is {source,target,head} x 0..=32) and
  the arbitrary iteration order of `.into_values()` is an explicit
  `bucketOrder : List Nat` parameter, to be quantified over permutations of
  `List.range 33` in theorems.
-/

set_option linter.unusedVariables false

/-! Protocol constants from `types::consts::altair`. -/

def WEIGHT_DENOMINATOR : Nat := 64

def TIMELY_SOURCE_FLAG_INDEX : Nat := 0

def TIMELY_TARGET_FLAG_INDEX : Nat := 1

def TIMELY_HEAD_FLAG_INDEX : Nat := 2

/-- One past the largest `u64` value. -/
def U64_LIMIT : Nat := 2 ^ 64

/-! `safe_arith::SafeArith` on `u64`: checked multiplication and division. -/

def safe_mul (a b : Nat) : Option Nat :=
  if a * b < U64_LIMIT then some (a * b) else none

def safe_div (a b : Nat) : Option Nat :=
  if b = 0 then none else some (a / b)

/-- Rust `x as i64` reinterpretation of a `u64` value. -/
def u64_as_i64 (x : Nat) : Int :=
  if x < 2 ^ 63 then (x : Int) else (x : Int) - (2 ^ 64 : Int)

/-- The expression at lines 226-233:
`(-(base_reward as i64 as i128) * weight as i128 / WEIGHT_DENOMINATOR as i128) as u64`.
Rust `i128` division truncates toward zero (`Int.tdiv`); the final `as u64`
cast keeps the low 64 bits (`% 2 ^ 64` as a nonnegative remainder). -/
def penaltyExpr (base_reward weight : Nat) : Nat :=
  (((-(u64_as_i64 base_reward)) * (weight : Int)).tdiv (WEIGHT_DENOMINATOR : Int)
      % (2 ^ 64 : Int)).toNat

/-! Outer bindings at lines 56-58 of attestation_rewards.rs. They are shadowed
by the loop variables inside the flag loop, but they are the bindings visible
to the fold at line 156 (`match flag_index`) and to the penalty arms at lines
226 and 231 (`base_reward`, `weight`). -/

def outer_flag_index : Nat := 0

def outer_weight : Nat := 0

def outer_base_reward : Nat := 0

/-! Result records (eth2 API types). -/

structure IdealAttestationRewards where
  effective_balance : Nat
  head : Nat
  target : Nat
  source : Nat
deriving DecidableEq

structure TotalAttestationRewards where
  validator_index : Nat
  head : Int
  target : Int
  source : Int
  inclusion_delay : Nat
deriving DecidableEq

structure StandardAttestationRewards where
  ideal_rewards : List IdealAttestationRewards
  total_rewards : List TotalAttestationRewards
deriving DecidableEq

/-- All values `compute_attestation_rewards` reads from its external
collaborators (chain head status, beacon state, participation cache, spec),
for the fixed `previous_epoch` of the resolved state.  The `member` field
records membership of a validator in a flag's unslashed participating indices;
the participation cache exposes it, and the specification's reward rules key
on it, so it is part of the interface even though the code under `src/` never
consults it. -/
structure Inputs where
  /-- `chain.is_optimistic_or_invalid_head()` (line 32). -/
  execOptRes : Option Bool
  /-- `get_flag_weight(flag)` (line 67); total on the three flags used. -/
  flagWeight : Nat → Nat
  /-- whether `participation_cache.get_unslashed_participating_indices(flag,
  previous_epoch)` returns `Ok` (lines 70 and 201). -/
  lookupOk : Nat → Bool
  /-- membership of validator `v` in the unslashed participating indices of a
  flag, `member flag v` (cache data; unused by the code). -/
  member : Nat → Nat → Bool
  /-- `unslashed_participating_indices.total_balance()` (line 79). -/
  upBalanceRes : Nat → Option Nat
  /-- `participation_cache.current_epoch_total_active_balance()` (line 97). -/
  totalActiveBalance : Nat
  /-- `spec.effective_balance_increment`. -/
  increment : Nat
  /-- `BaseRewardPerIncrement::new(total_active_balance, spec)` (line 103). -/
  brpiRes : Option Nat
  /-- `state.is_in_inactivity_leak(previous_epoch, spec)` (line 135). -/
  inLeak : Bool
  /-- `state.is_eligible_validator(previous_epoch, v)` (line 179). -/
  eligibleRes : Nat → Option Bool
  /-- `state.get_effective_balance(v)` (line 185, unwrapped; total here, the
  out-of-range panic is preempted by `eligibleRes` failing first). -/
  effBal : Nat → Nat
  /-- `participation_cache.eligible_validator_indices()` (line 173). -/
  eligibleIndices : List Nat

/-- A `for`-loop that computes one `Option` per element with `?` and collects
the results; the first failure aborts the whole computation. -/
def collectM {α β : Type} (f : α → Option β) : List α → Option (List β)
  | [] => some []
  | x :: xs => (f x).bind fun y => (collectM f xs).map fun ys => y :: ys

/-- Lines 108-133: one cell of the ideal-reward table.
`base_reward = b * brpi` (checked), `reward_numerator = base_reward * weight *
participating_increments` (checked), `ideal = reward_numerator /
active_increments / WEIGHT_DENOMINATOR` (checked, two sequential truncating
divisions). -/
def idealRewardCell (brpi weight upi ai b : Nat) : Option Nat :=
  (safe_mul b brpi).bind fun base_reward =>
  (safe_mul base_reward weight).bind fun x =>
  (safe_mul x upi).bind fun reward_numerator =>
  (safe_div reward_numerator ai).bind fun y =>
  safe_div y WEIGHT_DENOMINATOR

/-- Lines 67-140 for one flag: the 33 values inserted into
`ideal_rewards_hashmap` under keys `(flag, 0) .. (flag, 32)`.  The leak check
at lines 135-139 runs after the checked arithmetic, replacing a successfully
computed value with 0. -/
def flagIdeal (I : Inputs) (flag : Nat) : Option (List Nat) :=
  if I.lookupOk flag then
    (I.upBalanceRes flag).bind fun unslashed_participating_balance =>
    (safe_div unslashed_participating_balance I.increment).bind
      fun unslashed_participating_increments =>
    (safe_div I.totalActiveBalance I.increment).bind fun active_increments =>
    I.brpiRes.bind fun base_reward_per_increment =>
    collectM
      (fun b =>
        (idealRewardCell base_reward_per_increment (I.flagWeight flag)
            unslashed_participating_increments active_increments b).map
          fun v => if I.inLeak then 0 else v)
      (List.range 33)
  else none

/-- Hashmap cell lookup used when summarizing the fold: value stored for a
bucket in a per-flag cell list. -/
def cellAt (cells : List Nat) (b : Nat) : Nat :=
  (cells.get? b).getD 0

/-- Lines 143-166: the fold of `ideal_rewards_hashmap` into one record per
bucket.  The `match flag_index` at line 156 tests the OUTER binding
`flag_index = 0` (line 56) — the hashmap key component is bound as
`_flag_index` and ignored — so the `TIMELY_SOURCE_FLAG_INDEX` arm is taken for
every entry and all three flags' cells are accumulated into `source`, while
`head` and `target` keep their initial 0.  Since `+=` is commutative and
associative and the `u64` sums stay far below `2 ^ 64` (each cell is at most
`(2 ^ 64 - 1) / 64`), iterating the hashmap in any order produces, for bucket
`b`, exactly this record. -/
def mergeBucket (sCells tCells hCells : List Nat) (b : Nat) :
    IdealAttestationRewards :=
  { effective_balance := b
    head := 0
    target := 0
    source := cellAt sCells b + cellAt tCells b + cellAt hCells b }

/-- Lines 54-166: the `ideal_rewards` vector.  `bucketOrder` is the iteration
order of `.into_values()` on the per-bucket hashmap: an arbitrary permutation
of the 33 bucket keys. -/
def idealRewardsVec (I : Inputs) (bucketOrder : List Nat) :
    Option (List IdealAttestationRewards) :=
  (flagIdeal I TIMELY_SOURCE_FLAG_INDEX).bind fun sCells =>
  (flagIdeal I TIMELY_TARGET_FLAG_INDEX).bind fun tCells =>
  (flagIdeal I TIMELY_HEAD_FLAG_INDEX).map fun hCells =>
  bucketOrder.map (mergeBucket sCells tCells hCells)

def flagListIter : List Nat :=
  [TIMELY_SOURCE_FLAG_INDEX, TIMELY_TARGET_FLAG_INDEX, TIMELY_HEAD_FLAG_INDEX]

/-- Lines 200-238: one iteration of the inner flag loop, updating the mutable
`(head_reward, target_reward, source_reward)` triple.
`voted_correctly` (lines 201-203) is `get_unslashed_participating_indices(
flag, previous_epoch).is_ok()` — the success of the cache lookup, not a
membership test.  On the voted-correctly path the `find` over `ideal_rewards`
assigns all three components from the first record whose `effective_balance`
equals the validator's bucket, and leaves them unchanged when no record
matches (the `map` closure holding the assignments does not run).  On the
other path the `match` arms use the outer `base_reward`/`weight` bindings.
`beth` is `effective_balance.safe_div(spec.effective_balance_increment)`
unwrapped at line 208; every path reaching this code has
`I.increment ≠ 0` (the same division already succeeded at line 88), where
`safe_div` agrees with plain truncating division. -/
def stepFlag (I : Inputs) (ideal : List IdealAttestationRewards)
    (eligible : Bool) (beth : Nat) (hts : Nat × Nat × Nat) (flag : Nat) :
    Nat × Nat × Nat :=
  if eligible then
    if I.lookupOk flag then
      match ideal.find? (fun r => r.effective_balance == beth) with
      | some r => (r.head, r.target, r.source)
      | none => hts
    else
      if flag == TIMELY_HEAD_FLAG_INDEX then hts
      else if flag == TIMELY_TARGET_FLAG_INDEX then
        (hts.1, penaltyExpr outer_base_reward outer_weight, hts.2.2)
      else if flag == TIMELY_SOURCE_FLAG_INDEX then
        (hts.1, hts.2.1, penaltyExpr outer_base_reward outer_weight)
      else hts
  else hts

/-- Lines 240-246: the record pushed after each flag iteration (the push is
inside the flag loop). -/
def mkTotalRecord (v : Nat) (hts : Nat × Nat × Nat) : TotalAttestationRewards :=
  { validator_index := v
    head := u64_as_i64 hts.1
    target := u64_as_i64 hts.2.1
    source := u64_as_i64 hts.2.2
    inclusion_delay := 0 }

/-- Lines 178-248 for one validator: the (three) records pushed for it, or
`none` when `is_eligible_validator` fails. -/
def validatorRecords (I : Inputs) (ideal : List IdealAttestationRewards)
    (v : Nat) : Option (List TotalAttestationRewards) :=
  (I.eligibleRes v).map fun eligible =>
    let beth := I.effBal v / I.increment
    (flagListIter.foldl
      (fun (acc : List TotalAttestationRewards × (Nat × Nat × Nat)) flag =>
        let hts := stepFlag I ideal eligible beth acc.2 flag
        (acc.1 ++ [mkTotalRecord v hts], hts))
      ([], (0, 0, 0))).1

/-- Lines 169-248: the `total_rewards` vector.  Lines 171-176: an empty
caller-supplied list falls back to `eligible_validator_indices()`. -/
def totalRewardsVec (I : Inputs) (validators : List Nat)
    (ideal : List IdealAttestationRewards) :
    Option (List TotalAttestationRewards) :=
  (collectM (validatorRecords I ideal)
      (if validators.isEmpty then I.eligibleIndices else validators)).map
    List.flatten

/-- Lines 21-257: `compute_attestation_rewards`.  The state acquisition at
lines 36-46 and the cache construction at line 49 are the external
collaborators whose products `Inputs` records; a failure there is a `none`
`execOptRes`-like early return and is outside the claims under study. -/
def compute_attestation_rewards (I : Inputs) (validators : List Nat)
    (bucketOrder : List Nat) : Option (StandardAttestationRewards × Bool) :=
  I.execOptRes.bind fun execution_optimistic =>
  (idealRewardsVec I bucketOrder).bind fun ideal =>
  (totalRewardsVec I validators ideal).map fun totals =>
  ({ ideal_rewards := ideal, total_rewards := totals }, execution_optimistic)

/-! Embedding of sync_committee_rewards.rs. -/

structure SyncCommitteeReward where
  validator_index : Nat
  reward : Int
deriving DecidableEq

structure SyncCommitteeAttestationRewards where
  execution_optimistic : Bool
  finalized : Bool
  data : List SyncCommitteeReward
deriving DecidableEq

/-- External collaborators of `compute_sync_committee_rewards`:
`block_id.blinded_block(&chain)` resolves to the block's slot, its declared
state root and the execution-optimistic flag; `chain.get_state(root, slot)`
yields a state handle (abstracted to an identifier); and
`compute_sync_aggregate_rewards(&state, &spec)` yields the proposer reward and
the per-participant rewards for that state. -/
structure SyncInputs where
  blinded_block : Option (Nat × Nat × Bool)
  get_state : Nat → Nat → Option Nat
  sync_aggregate_rewards : Nat → Option (Nat × List (Nat × Nat))

/-- Lines 9-40 of sync_committee_rewards.rs: after resolving the block, the
state and the aggregate rewards (each with `?`/`.unwrap()`), the function
returns a hardcoded record: `execution_optimistic: false, finalized: false,
data: Vec::new()`, discarding both the computed rewards and the resolved
optimistic flag. -/
def compute_sync_committee_rewards (I : SyncInputs) :
    Option SyncCommitteeAttestationRewards :=
  I.blinded_block.bind fun blk =>
  (I.get_state blk.2.1 blk.1).bind fun st =>
  (I.sync_aggregate_rewards st).map fun _rewards =>
  { execution_optimistic := false, finalized := false, data := [] }

/-! Concrete instances used to evaluate the code on small inputs. -/

/-- A small healthy snapshot: one validator (index 0), eligible, one balance
increment of stake (bucket 1), every cache lookup succeeding, participating
and active balances both one increment, base reward per increment 64, no
inactivity leak — and the validator a member of NO flag's unslashed
participating set. -/
def I0 : Inputs :=
  { execOptRes := some false
    flagWeight := fun f => if f == TIMELY_TARGET_FLAG_INDEX then 26 else 14
    lookupOk := fun _ => true
    member := fun _ _ => false
    upBalanceRes := fun _ => some 1
    totalActiveBalance := 1
    increment := 1
    brpiRes := some 64
    inLeak := false
    eligibleRes := fun _ => some true
    effBal := fun _ => 1
    eligibleIndices := [0] }

/-- The ascending bucket order 0..32. -/
def idOrder : List Nat := List.range 33

/-- Same snapshot during an inactivity leak. -/
def Ileak : Inputs := { I0 with inLeak := true }

/-- Same snapshot with `BaseRewardPerIncrement::new` failing. -/
def Ibad : Inputs := { I0 with brpiRes := none }

/-- A sync-rewards call whose block resolves at slot 5 with state root 7 and
execution-optimistic flag `true`, and whose sync aggregate touches exactly one
committee member (validator 0, reward 9). -/
def S0 : SyncInputs :=
  { blinded_block := some (5, 7, true)
    get_state := fun root slot => if root == 7 && slot == 5 then some 0 else none
    sync_aggregate_rewards := fun st => if st == 0 then some (3, [(0, 9)]) else none }

/-! Helper lemmas about the embedding. -/

theorem collectM_get_pos {α β : Type} (f : α → Option β) :
    ∀ (l : List α) (ys : List β), collectM f l = some ys →
      ∀ (i : Nat) (x : α), l.get? i = some x →
        ∃ y, ys.get? i = some y ∧ f x = some y := by
  intro l
  induction l with
  | nil =>
      intro ys h i x hx
      simp [List.get?] at hx
  | cons a as ih =>
      intro ys h i x hx
      simp only [collectM] at h
      cases hf : f a with
      | none => rw [hf] at h; simp at h
      | some y0 =>
          rw [hf] at h
          cases hc : collectM f as with
          | none => rw [hc] at h; simp at h
          | some ys0 =>
              rw [hc] at h
              simp at h
              subst h
              cases i with
              | zero =>
                  simp [List.get?] at hx
                  subst hx
                  exact ⟨y0, rfl, hf⟩
              | succ n =>
                  simp only [List.get?] at hx ⊢
                  exact ih ys0 hc n x hx

theorem collectM_mem_src {α β : Type} (f : α → Option β) :
    ∀ (l : List α) (ys : List β), collectM f l = some ys →
      ∀ y ∈ ys, ∃ x, x ∈ l ∧ f x = some y := by
  intro l
  induction l with
  | nil =>
      intro ys h y hy
      simp only [collectM] at h
      injection h with h
      subst h
      simp at hy
  | cons a as ih =>
      intro ys h y hy
      simp only [collectM] at h
      cases hf : f a with
      | none => rw [hf] at h; simp at h
      | some y0 =>
          rw [hf] at h
          cases hc : collectM f as with
          | none => rw [hc] at h; simp at h
          | some ys0 =>
              rw [hc] at h
              simp at h
              subst h
              rcases List.mem_cons.mp hy with rfl | hy'
              · exact ⟨a, List.mem_cons_self a as, hf⟩
              · obtain ⟨x, hx, hfx⟩ := ih ys0 hc y hy'
                exact ⟨x, List.mem_cons_of_mem a hx, hfx⟩

theorem idealRewardCell_some_iff (brpi w upi ai b v : Nat) :
    idealRewardCell brpi w upi ai b = some v ↔
      b * brpi < U64_LIMIT ∧ b * brpi * w < U64_LIMIT ∧
        b * brpi * w * upi < U64_LIMIT ∧ ai ≠ 0 ∧
        v = b * brpi * w * upi / ai / WEIGHT_DENOMINATOR := by
  unfold idealRewardCell safe_mul safe_div
  by_cases h1 : b * brpi < U64_LIMIT
  · by_cases h2 : b * brpi * w < U64_LIMIT
    · by_cases h3 : b * brpi * w * upi < U64_LIMIT
      · by_cases h4 : ai = 0
        · simp [h1, h2, h3, h4]
        · simp [h1, h2, h3, h4, WEIGHT_DENOMINATOR, eq_comm]
      · simp [h1, h2, h3]
    · simp [h1, h2]
  · simp [h1]

theorem flagIdeal_elim (I : Inputs) (flag : Nat) (cells : List Nat)
    (hc : flagIdeal I flag = some cells) :
    I.lookupOk flag = true ∧
      ∃ upb brpi, I.upBalanceRes flag = some upb ∧ I.brpiRes = some brpi ∧
        I.increment ≠ 0 ∧
        collectM
          (fun b =>
            (idealRewardCell brpi (I.flagWeight flag) (upb / I.increment)
                (I.totalActiveBalance / I.increment) b).map
              fun v => if I.inLeak then 0 else v)
          (List.range 33) = some cells := by
  unfold flagIdeal at hc
  by_cases hlk : I.lookupOk flag = true
  · rw [if_pos hlk] at hc
    cases hub : I.upBalanceRes flag with
    | none => rw [hub] at hc; simp at hc
    | some upb =>
        rw [hub] at hc
        simp only [Option.some_bind] at hc
        by_cases hinc : I.increment = 0
        · simp [safe_div, hinc] at hc
        · simp only [safe_div, if_neg hinc, Option.some_bind] at hc
          cases hbr : I.brpiRes with
          | none => rw [hbr] at hc; simp at hc
          | some brpi =>
              rw [hbr] at hc
              simp only [Option.some_bind] at hc
              exact ⟨hlk, upb, brpi, rfl, rfl, hinc, hc⟩
  · rw [if_neg hlk] at hc
    simp at hc

theorem flagIdeal_leak_cells (I : Inputs) (flag : Nat) (cells : List Nat)
    (hleak : I.inLeak = true) (hc : flagIdeal I flag = some cells) :
    ∀ b, cellAt cells b = 0 := by
  obtain ⟨-, upb, brpi, -, -, -, hcoll⟩ := flagIdeal_elim I flag cells hc
  intro b
  unfold cellAt
  cases hget : cells.get? b with
  | none => rfl
  | some y =>
      have hymem : y ∈ cells := List.get?_mem hget
      obtain ⟨x, hx, hfx⟩ := collectM_mem_src _ _ _ hcoll y hymem
      rw [hleak] at hfx
      cases hcell : idealRewardCell brpi (I.flagWeight flag) (upb / I.increment)
        (I.totalActiveBalance / I.increment) x with
      | none => rw [hcell] at hfx; simp at hfx
      | some a =>
          rw [hcell] at hfx
          simp at hfx
          simp only [Option.getD_some]
          omega

/-! Claim theorems. -/

/-- C1 (code evaluated at the failing input): in the total-rewards loop the
code treats every validator as having voted correctly whenever the cache
lookup succeeds — `voted_correctly` is `.is_ok()` of the lookup, not a
membership test.  In the snapshot `I0`, validator 0 is a member of no flag's
unslashed participating set, yet all three emitted records carry the positive
ideal-table value 54 in `source` instead of a penalty. -/
theorem c1_membership_ignored_eval :
    I0.member TIMELY_SOURCE_FLAG_INDEX 0 = false ∧
    I0.member TIMELY_TARGET_FLAG_INDEX 0 = false ∧
    I0.member TIMELY_HEAD_FLAG_INDEX 0 = false ∧
    (compute_attestation_rewards I0 [0] idOrder).map
        (fun out => out.1.total_rewards.map fun r => r.source) =
      some [54, 54, 54] := by decide

/-- C2 (code evaluated at the failing input): `total_rewards.push` sits inside
the per-flag loop, so a call with the single supplied index 0 — or an empty
list falling back to `eligible_validator_indices() = [0]` — returns three
`TotalAttestationRewards` records, not one per index. -/
theorem c2_three_records_per_index_eval :
    (compute_attestation_rewards I0 [0] idOrder).map
        (fun out => out.1.total_rewards.length) = some 3 ∧
    (compute_attestation_rewards I0 [] idOrder).map
        (fun out => out.1.total_rewards.length) = some 3 ∧
    I0.eligibleIndices = [0] := by decide

/-- C3 (code evaluated at the failing input): the fold's `match flag_index`
tests the shadowed outer binding `flag_index = 0`, so every flag's cell is
added to `source`.  In `I0` the per-flag cells at bucket 1 are source 14,
target 26 and head 14, yet the returned bucket-1 record is
`{effective_balance 1, head 0, target 0, source 54}`. -/
theorem c3_flags_merged_into_source_eval :
    ((compute_attestation_rewards I0 [] idOrder).bind
        fun out => out.1.ideal_rewards.get? 1) =
      some { effective_balance := 1, head := 0, target := 0, source := 54 } ∧
    ((flagIdeal I0 TIMELY_SOURCE_FLAG_INDEX).bind fun cells => cells.get? 1) =
      some 14 ∧
    ((flagIdeal I0 TIMELY_TARGET_FLAG_INDEX).bind fun cells => cells.get? 1) =
      some 26 ∧
    ((flagIdeal I0 TIMELY_HEAD_FLAG_INDEX).bind fun cells => cells.get? 1) =
      some 14 := by decide

/-- C4 (code evaluated at the failing input): validator 0 of `I0` is eligible
and did not vote correctly on the source flag (it is in no participating set),
so the claim requires its source value to be
`-(base_reward * weight) / WEIGHT_DENOMINATOR ≤ 0`; the code instead emits the
positive ideal-table value 54 (the penalty branch is unreachable when the
cache lookup succeeds, and would use the outer zero bindings anyway). -/
theorem c4_no_penalty_for_nonmember_eval :
    I0.member TIMELY_SOURCE_FLAG_INDEX 0 = false ∧
    ((compute_attestation_rewards I0 [0] idOrder).bind
        fun out => (out.1.total_rewards.get? 0).map fun r => r.source) =
      some 54 ∧
    ¬ ((54 : Int) ≤ 0) := by decide

/-- C5 (code evaluated at the failing input): in `S0` the block resolves with
execution-optimistic flag `true` and the sync aggregate touches one committee
member, yet `compute_sync_committee_rewards` returns the hardcoded record with
`execution_optimistic = false` and an empty `data` vector. -/
theorem c5_sync_rewards_stub_eval :
    compute_sync_committee_rewards S0 =
      some { execution_optimistic := false, finalized := false, data := [] } ∧
    (S0.blinded_block.map fun blk => blk.2.2) = some true ∧
    ((S0.sync_aggregate_rewards 0).map fun p => p.2.length) = some 1 := by
  decide

/-- C6 (code evaluated at the failing input): the 33 bucket records are taken
straight from `HashMap::into_values()` without sorting, so the emitted
`effective_balance` order is the hashmap's arbitrary iteration order; with the
iteration order reversed the first two entries are 32 and then 31, violating
non-decreasing order. -/
theorem c6_bucket_order_arbitrary_eval :
    (compute_attestation_rewards I0 [] ((List.range 33).reverse)).map
        (fun out => out.1.ideal_rewards.map fun r => r.effective_balance) =
      some ((List.range 33).reverse) ∧
    (List.range 33).reverse.get? 0 = some 32 ∧
    (List.range 33).reverse.get? 1 = some 31 ∧
    ¬ (32 : Nat) ≤ 31 := by decide

/-- C7: when the checked pipeline succeeds and the chain is not in an
inactivity leak, the cell stored for bucket `b` of a flag equals
`((b * base_reward_per_increment) * weight * participating_increments)`
divided first by `active_increments` and then by `WEIGHT_DENOMINATOR`, both as
sequential truncating integer divisions (with `participating_increments` and
`active_increments` each the truncating quotient by the balance increment). -/
theorem c7_ideal_reward_formula (I : Inputs) (flag b : Nat) (cells : List Nat)
    (upb brpi : Nat) (hb : b < 33) (hleak : I.inLeak = false)
    (hub : I.upBalanceRes flag = some upb) (hbr : I.brpiRes = some brpi)
    (hc : flagIdeal I flag = some cells) :
    cellAt cells b =
      b * brpi * I.flagWeight flag * (upb / I.increment)
        / (I.totalActiveBalance / I.increment) / WEIGHT_DENOMINATOR := by
  obtain ⟨-, upb', brpi', hub', hbr', hinc, hcoll⟩ := flagIdeal_elim I flag cells hc
  rw [hub] at hub'
  injection hub' with h1
  subst h1
  rw [hbr] at hbr'
  injection hbr' with h2
  subst h2
  have hrange : (List.range 33).get? b = some b := List.get?_range hb
  obtain ⟨y, hy, hfy⟩ := collectM_get_pos _ _ _ hcoll b b hrange
  rw [hleak] at hfy
  simp at hfy
  have hform := (idealRewardCell_some_iff brpi (I.flagWeight flag)
      (upb / I.increment) (I.totalActiveBalance / I.increment) b y).mp hfy
  unfold cellAt
  rw [hy]
  simpa using hform.2.2.2.2

/-- C7 witness: the theorem applied to the concrete snapshot `I0`, source
flag, bucket 1. -/
theorem c7_ideal_reward_formula_witness :
    cellAt ((List.range 33).map fun b => b * 14) 1 =
      1 * 64 * I0.flagWeight TIMELY_SOURCE_FLAG_INDEX * (1 / I0.increment)
        / (I0.totalActiveBalance / I0.increment) / WEIGHT_DENOMINATOR :=
  c7_ideal_reward_formula I0 TIMELY_SOURCE_FLAG_INDEX 1
    ((List.range 33).map fun b => b * 14) 1 64 (by decide) (by decide)
    (by decide) (by decide) (by decide)

/-- C8: the reward pipeline's arithmetic is checked and exact — a cell
computation returns a value exactly when none of the three multiplications
reaches `2 ^ 64` and the divisor `active_increments` is nonzero, and the value
returned is the exact untruncated natural-number quotient chain (never a
wrapped or saturated fixed-width result); the penalty expression (the only
unchecked arithmetic in the pipeline) is applied to the constant zero outer
bindings and evaluates to exactly 0; and a failing flag computation makes the
whole call fail. -/
theorem c8_checked_arithmetic (brpi w upi ai b : Nat) (I : Inputs)
    (vs order : List Nat) :
    (∀ v, idealRewardCell brpi w upi ai b = some v ↔
        b * brpi < U64_LIMIT ∧ b * brpi * w < U64_LIMIT ∧
          b * brpi * w * upi < U64_LIMIT ∧ ai ≠ 0 ∧
          v = b * brpi * w * upi / ai / WEIGHT_DENOMINATOR) ∧
    penaltyExpr outer_base_reward outer_weight = 0 ∧
    ((flagIdeal I TIMELY_SOURCE_FLAG_INDEX = none ∨
        flagIdeal I TIMELY_TARGET_FLAG_INDEX = none ∨
        flagIdeal I TIMELY_HEAD_FLAG_INDEX = none) →
      compute_attestation_rewards I vs order = none) := by
  refine ⟨fun v => idealRewardCell_some_iff brpi w upi ai b v, by decide, ?_⟩
  intro h
  unfold compute_attestation_rewards idealRewardsVec
  cases I.execOptRes with
  | none => rfl
  | some eo =>
      rcases h with h | h | h
      · simp [h]
      · cases h0 : flagIdeal I TIMELY_SOURCE_FLAG_INDEX <;> simp [h, h0]
      · cases h0 : flagIdeal I TIMELY_SOURCE_FLAG_INDEX <;>
          cases h1 : flagIdeal I TIMELY_TARGET_FLAG_INDEX <;> simp [h, h0, h1]

/-- C8 witness: a successful cell at a concrete input, and a whole-call
failure when `BaseRewardPerIncrement::new` fails. -/
theorem c8_checked_arithmetic_witness :
    idealRewardCell 64 14 1 1 1 = some 14 ∧
    compute_attestation_rewards Ibad [] idOrder = none :=
  ⟨((c8_checked_arithmetic 64 14 1 1 1 Ibad [] idOrder).1 14).mpr (by decide),
    (c8_checked_arithmetic 64 14 1 1 1 Ibad [] idOrder).2.2 (Or.inl (by decide))⟩

/-- C9: if the state is in an inactivity leak for the previous epoch, every
returned `IdealAttestationRewards` record has head, target and source all
zero. -/
theorem c9_inactivity_leak_zeroes (I : Inputs) (vs order : List Nat)
    (out : StandardAttestationRewards × Bool) (hleak : I.inLeak = true)
    (h : compute_attestation_rewards I vs order = some out) :
    out.1.ideal_rewards.all
        (fun r => r.head == 0 && r.target == 0 && r.source == 0) = true := by
  unfold compute_attestation_rewards at h
  cases heo : I.execOptRes with
  | none => rw [heo] at h; simp at h
  | some eo =>
      rw [heo] at h
      simp only [Option.some_bind] at h
      cases hiv : idealRewardsVec I order with
      | none => rw [hiv] at h; simp at h
      | some ideal =>
          rw [hiv] at h
          simp only [Option.some_bind] at h
          cases htv : totalRewardsVec I vs ideal with
          | none => rw [htv] at h; simp at h
          | some totals =>
              rw [htv] at h
              simp only [Option.map_some'] at h
              injection h with h
              subst h
              unfold idealRewardsVec at hiv
              cases h0 : flagIdeal I TIMELY_SOURCE_FLAG_INDEX with
              | none => rw [h0] at hiv; simp at hiv
              | some sCells =>
                  rw [h0] at hiv
                  simp only [Option.some_bind] at hiv
                  cases h1 : flagIdeal I TIMELY_TARGET_FLAG_INDEX with
                  | none => rw [h1] at hiv; simp at hiv
                  | some tCells =>
                      rw [h1] at hiv
                      simp only [Option.some_bind] at hiv
                      cases h2 : flagIdeal I TIMELY_HEAD_FLAG_INDEX with
                      | none => rw [h2] at hiv; simp at hiv
                      | some hCells =>
                          rw [h2] at hiv
                          simp only [Option.map_some'] at hiv
                          injection hiv with hiv
                          subst hiv
                          rw [List.all_eq_true]
                          intro r hr
                          rw [List.mem_map] at hr
                          obtain ⟨bb, hbb, rfl⟩ := hr
                          have hs := flagIdeal_leak_cells I _ _ hleak h0 bb
                          have ht := flagIdeal_leak_cells I _ _ hleak h1 bb
                          have hh := flagIdeal_leak_cells I _ _ hleak h2 bb
                          simp [mergeBucket, hs, ht, hh]

/-- C9 witness: the theorem applied to the leaking snapshot `Ileak`. -/
theorem c9_inactivity_leak_zeroes_witness :
    (compute_attestation_rewards Ileak [] idOrder).map
        (fun out => out.1.ideal_rewards.all
          fun r => r.head == 0 && r.target == 0 && r.source == 0) =
      some true := by
  cases h : compute_attestation_rewards Ileak [] idOrder with
  | none =>
      have hs : (compute_attestation_rewards Ileak [] idOrder).isSome = true := by
        decide
      rw [h] at hs
      simp at hs
  | some out =>
      simp only [Option.map_some']
      exact congrArg some (c9_inactivity_leak_zeroes Ileak [] idOrder out rfl h)

/-- C10: the values emitted for a validator never consult that validator's
membership in any flag's unslashed participating set: with the cache lookups
succeeding, two snapshots differing only in the membership assignment produce
identical results. -/
theorem c10_participation_independence (I : Inputs) (m1 m2 : Nat → Nat → Bool)
    (vs order : List Nat) (hlk : ∀ flag, I.lookupOk flag = true) :
    compute_attestation_rewards { I with member := m1 } vs order =
      compute_attestation_rewards { I with member := m2 } vs order := rfl

/-- C10 witness: the theorem applied to `I0` with the two extreme membership
assignments. -/
theorem c10_participation_independence_witness :
    compute_attestation_rewards { I0 with member := fun _ _ => false } [0] idOrder =
      compute_attestation_rewards { I0 with member := fun _ _ => true } [0] idOrder :=
  c10_participation_independence I0 (fun _ _ => false) (fun _ _ => true) [0]
    idOrder (fun _ => rfl)
